import Mathlib

/-!
Verification of the pca9554-rs I2C I/O-expander driver (src/lib.rs).

The embedding models bytes as `Nat` (with `% 256` where the source's `u8`
arithmetic matters), the bitflags `Port` type as a one-field structure over
its raw byte, the `Address` and `Register` enums as inductives with their
`u8` representation values, and the embedded-hal transport as a record of
two oracles (`write`, `write_read`) returning `Except E`.  Each driver
operation returns the `Except` result of the source's single transport
call paired with the list of bus transactions it issued, in order, so that
transaction-count and wire-format claims are statable.
-/

namespace Pca9554

deriving instance DecidableEq for Except

/-- The bitflags `Port` type: a raw `u8` of 8 independent pin-flag bits. -/
structure Port where
  bits : Nat
  deriving DecidableEq, Repr

/-- `Port::from_bits_unchecked`: reinterpret a raw byte bit-for-bit, no validation. -/
def Port.from_bits_unchecked (b : Nat) : Port := ⟨b⟩

/-- `Port::empty()`: all pins clear. -/
def Port.empty : Port := ⟨0⟩

def Port.P00 : Port := ⟨0b00000001⟩

def Port.P01 : Port := ⟨0b00000010⟩

def Port.P02 : Port := ⟨0b00000100⟩

def Port.P03 : Port := ⟨0b00001000⟩

def Port.P04 : Port := ⟨0b00010000⟩

def Port.P05 : Port := ⟨0b00100000⟩

def Port.P06 : Port := ⟨0b01000000⟩

def Port.P07 : Port := ⟨0b10000000⟩

/-- Valid strap addresses for the PCA9554 (`enum Address`, repr u8). -/
inductive Address where
  | ADDR_0x20
  | ADDR_0x21
  | ADDR_0x22
  | ADDR_0x23
  | ADDR_0x24
  | ADDR_0x25
  | ADDR_0x26
  | ADDR_0x27
  deriving DecidableEq, Repr

/-- The `repr(u8)` value of each `Address` variant (`self.address as u8`). -/
def Address.toU8 : Address → Nat
  | .ADDR_0x20 => 0x20
  | .ADDR_0x21 => 0x21
  | .ADDR_0x22 => 0x22
  | .ADDR_0x23 => 0x23
  | .ADDR_0x24 => 0x24
  | .ADDR_0x25 => 0x25
  | .ADDR_0x26 => 0x26
  | .ADDR_0x27 => 0x27

/-- `impl TryFrom<u8> for Address`: match on the byte value. -/
def Address.try_from (value : Nat) : Except Unit Address :=
  match value with
  | 0x20 => Except.ok Address.ADDR_0x20
  | 0x21 => Except.ok Address.ADDR_0x21
  | 0x22 => Except.ok Address.ADDR_0x22
  | 0x23 => Except.ok Address.ADDR_0x23
  | 0x24 => Except.ok Address.ADDR_0x24
  | 0x25 => Except.ok Address.ADDR_0x25
  | 0x26 => Except.ok Address.ADDR_0x26
  | 0x27 => Except.ok Address.ADDR_0x27
  | _ => Except.error ()

/-- `enum Register`: the chip's register offsets. -/
inductive Register where
  | INPUT_PORT
  | OUTPUT_PORT
  | POLARITY_INVERSION
  | CONFIG_PORT
  | OUTPUT_DRIVE_0
  | OUTPUT_DRIVE_1
  | INPUT_LATCH
  | PULLUPDOWN_EN
  | PULLUPDOWN_SEL
  | INTERRUPT_MASK
  | INTERRUPT_STATUS
  | OUTPUT_PORT_CONFIG
  deriving DecidableEq, Repr

/-- The discriminant value of each `Register` variant (`reg as u8`). -/
def Register.toU8 : Register → Nat
  | .INPUT_PORT => 0x00
  | .OUTPUT_PORT => 0x01
  | .POLARITY_INVERSION => 0x02
  | .CONFIG_PORT => 0x03
  | .OUTPUT_DRIVE_0 => 0x40
  | .OUTPUT_DRIVE_1 => 0x41
  | .INPUT_LATCH => 0x42
  | .PULLUPDOWN_EN => 0x43
  | .PULLUPDOWN_SEL => 0x44
  | .INTERRUPT_MASK => 0x45
  | .INTERRUPT_STATUS => 0x46
  | .OUTPUT_PORT_CONFIG => 0x4F

/-- One bus transaction, as issued against the embedded-hal transport:
either an addressed write of raw bytes, or a combined write-then-read of
`readLen` bytes. -/
inductive BusOp where
  | write (addr : Nat) (bytes : List Nat)
  | writeRead (addr : Nat) (bytes : List Nat) (readLen : Nat)
  deriving DecidableEq, Repr

/-- The target bus address of a transaction. -/
def BusOp.addr : BusOp → Nat
  | .write a _ => a
  | .writeRead a _ _ => a

/-- The embedded-hal transport capability `T: Write<Error = E> + WriteRead<Error = E>`:
an oracle for each trait method.  `write addr bytes` models `i2c.write`;
`write_read addr bytes readLen` models `i2c.write_read` filling a buffer of
`readLen` bytes, returning the bytes placed in the buffer. -/
structure I2C (E : Type) where
  write : Nat → List Nat → Except E Unit
  write_read : Nat → List Nat → Nat → Except E (List Nat)

/-- `u8::from_le_bytes(buffer)` on the 1-byte buffer `[0u8; 1]`: the buffer
is zero-initialized and filled by the transport, so its single byte is the
head of the returned bytes, defaulting to the initial 0. -/
def u8_from_le_bytes (buffer : List Nat) : Nat := buffer.headD 0

/-- `port.bits.to_le_bytes()` for a `u8`: the single little-endian byte. -/
def u8_to_le_bytes (b : Nat) : List Nat := [b % 256]

/-- `struct PCA9554<T>`: the driver holds only its `Address`; the transport
type parameter is `PhantomData` (no transport is stored). -/
structure PCA9554 where
  address : Address
  deriving DecidableEq, Repr

/-- `PCA9554::new(_i2c, address)`: the `&T` argument is ignored. -/
def PCA9554.new {E : Type} (_i2c : I2C E) (address : Address) : PCA9554 :=
  ⟨address⟩

/-- `PCA9554::read`: one `i2c.write_read(self.address as u8, &[reg as u8], &mut buffer)`
with a 1-byte buffer, mapped on success through
`Port::from_bits_unchecked(u8::from_le_bytes(buffer))`.  The second
component is the ordered list of transport transactions issued by the call. -/
def PCA9554.read {E : Type} (d : PCA9554) (i2c : I2C E) (reg : Register) :
    Except E Port × List BusOp :=
  (Except.map (fun buffer => Port.from_bits_unchecked (u8_from_le_bytes buffer))
      (i2c.write_read d.address.toU8 [reg.toU8] 1),
   [BusOp.writeRead d.address.toU8 [reg.toU8] 1])

/-- `PCA9554::write`: `bytes = port.bits.to_le_bytes(); buffer = [reg as u8, bytes[0]];`
then one `i2c.write(self.address as u8, &buffer)`.  The second component is
the ordered list of transport transactions issued by the call. -/
def PCA9554.write {E : Type} (d : PCA9554) (i2c : I2C E) (reg : Register) (port : Port) :
    Except E Unit × List BusOp :=
  let bytes := u8_to_le_bytes port.bits
  let buffer := [reg.toU8, bytes.headD 0]
  (i2c.write d.address.toU8 buffer, [BusOp.write d.address.toU8 buffer])

/-- `PCA9554::read_inputs`. -/
def PCA9554.read_inputs {E : Type} (d : PCA9554) (i2c : I2C E) :
    Except E Port × List BusOp :=
  d.read i2c Register.INPUT_PORT

/-- `PCA9554::read_outputs`. -/
def PCA9554.read_outputs {E : Type} (d : PCA9554) (i2c : I2C E) :
    Except E Port × List BusOp :=
  d.read i2c Register.OUTPUT_PORT

/-- `PCA9554::write_outputs`. -/
def PCA9554.write_outputs {E : Type} (d : PCA9554) (i2c : I2C E) (output : Port) :
    Except E Unit × List BusOp :=
  d.write i2c Register.OUTPUT_PORT output

/-- `PCA9554::clear_outputs`. -/
def PCA9554.clear_outputs {E : Type} (d : PCA9554) (i2c : I2C E) :
    Except E Unit × List BusOp :=
  d.write i2c Register.OUTPUT_PORT Port.empty

/-- `PCA9554::write_config`. -/
def PCA9554.write_config {E : Type} (d : PCA9554) (i2c : I2C E) (config : Port) :
    Except E Unit × List BusOp :=
  d.write i2c Register.CONFIG_PORT config

/-- `PCA9554::read_config`. -/
def PCA9554.read_config {E : Type} (d : PCA9554) (i2c : I2C E) :
    Except E Port × List BusOp :=
  d.read i2c Register.CONFIG_PORT

/-- `PCA9554::set_inverted`. -/
def PCA9554.set_inverted {E : Type} (d : PCA9554) (i2c : I2C E) (invert : Port) :
    Except E Unit × List BusOp :=
  d.write i2c Register.POLARITY_INVERSION invert

/-- `PCA9554::is_inverted`. -/
def PCA9554.is_inverted {E : Type} (d : PCA9554) (i2c : I2C E) :
    Except E Port × List BusOp :=
  d.read i2c Register.POLARITY_INVERSION

/-- A concrete transport whose write-then-read oracle always answers the
byte 0xAA and whose write oracle always succeeds; used to instantiate
theorems with hypotheses at concrete inputs. -/
def okI2C : I2C Unit :=
  { write := fun _ _ => Except.ok ()
    write_read := fun _ _ _ => Except.ok [0xAA] }

/-- C1: for every register, the register read primitive issues exactly one
combined write-then-read transaction — writing the single byte `reg as u8`
to the driver's bus address and reading back exactly one byte — and on a
successful response byte `b` it returns exactly
`Port::from_bits_unchecked b`, for every one of the 256 possible byte
patterns, with no validation. -/
theorem read_single_write_then_read {E : Type} (d : PCA9554) (i2c : I2C E)
    (reg : Register) :
    (d.read i2c reg).2 = [BusOp.writeRead d.address.toU8 [reg.toU8] 1] ∧
    (∀ b : Nat, b < 256 →
      i2c.write_read d.address.toU8 [reg.toU8] 1 = Except.ok [b] →
      (d.read i2c reg).1 = Except.ok (Port.from_bits_unchecked b)) := by
  refine ⟨rfl, fun b _ h => ?_⟩
  simp [PCA9554.read, h, u8_from_le_bytes, Except.map]

/-- Witness for C1: concrete instance at address 0x24, register INPUT_PORT,
response byte 0xAA. -/
theorem read_single_write_then_read_witness :
    ((PCA9554.mk Address.ADDR_0x24).read okI2C Register.INPUT_PORT).2
        = [BusOp.writeRead (PCA9554.mk Address.ADDR_0x24).address.toU8
            [Register.INPUT_PORT.toU8] 1] ∧
    ((PCA9554.mk Address.ADDR_0x24).read okI2C Register.INPUT_PORT).1
        = Except.ok (Port.from_bits_unchecked 0xAA) := by
  have h := read_single_write_then_read (PCA9554.mk Address.ADDR_0x24) okI2C
    Register.INPUT_PORT
  exact ⟨h.1, h.2 0xAA (by decide) rfl⟩

/-- C2: for every register and Port value, the register write primitive
issues exactly one bus write transaction of exactly the two bytes
`[reg as u8, port.bits]` in that order to the driver's bus address, and its
result is exactly the transport's result (success carries no value). -/
theorem write_single_two_byte_write {E : Type} (d : PCA9554) (i2c : I2C E)
    (reg : Register) (port : Port) (h : port.bits < 256) :
    (d.write i2c reg port).2
        = [BusOp.write d.address.toU8 [reg.toU8, port.bits]] ∧
    (d.write i2c reg port).1
        = i2c.write d.address.toU8 [reg.toU8, port.bits] := by
  simp [PCA9554.write, u8_to_le_bytes, Nat.mod_eq_of_lt h]

/-- Witness for C2: concrete instance at address 0x20, register OUTPUT_PORT,
port P05 (bits = 0x20). -/
theorem write_single_two_byte_write_witness :
    ((PCA9554.mk Address.ADDR_0x20).write okI2C Register.OUTPUT_PORT Port.P05).2
        = [BusOp.write (PCA9554.mk Address.ADDR_0x20).address.toU8
            [Register.OUTPUT_PORT.toU8, (Port.P05).bits]] ∧
    ((PCA9554.mk Address.ADDR_0x20).write okI2C Register.OUTPUT_PORT Port.P05).1
        = okI2C.write (PCA9554.mk Address.ADDR_0x20).address.toU8
            [Register.OUTPUT_PORT.toU8, (Port.P05).bits] :=
  write_single_two_byte_write (PCA9554.mk Address.ADDR_0x20) okI2C
    Register.OUTPUT_PORT Port.P05 (by decide)

/-- C3: each public operation issues its single transaction against exactly
one fixed register offset — read_inputs 0x00; read_outputs, write_outputs
and clear_outputs 0x01; set_inverted and is_inverted 0x02; write_config and
read_config 0x03 — and hence no public operation ever issues any other
offset (in particular none of the reserved offsets 0x40–0x4F). -/
theorem public_ops_fixed_register_offsets {E : Type} (d : PCA9554)
    (i2c : I2C E) (p : Port) :
    (d.read_inputs i2c).2 = [BusOp.writeRead d.address.toU8 [0x00] 1] ∧
    (d.read_outputs i2c).2 = [BusOp.writeRead d.address.toU8 [0x01] 1] ∧
    (d.write_outputs i2c p).2
        = [BusOp.write d.address.toU8 [0x01, p.bits % 256]] ∧
    (d.clear_outputs i2c).2 = [BusOp.write d.address.toU8 [0x01, 0x00]] ∧
    (d.set_inverted i2c p).2
        = [BusOp.write d.address.toU8 [0x02, p.bits % 256]] ∧
    (d.is_inverted i2c).2 = [BusOp.writeRead d.address.toU8 [0x02] 1] ∧
    (d.write_config i2c p).2
        = [BusOp.write d.address.toU8 [0x03, p.bits % 256]] ∧
    (d.read_config i2c).2 = [BusOp.writeRead d.address.toU8 [0x03] 1] :=
  ⟨rfl, rfl, rfl, rfl, rfl, rfl, rfl, rfl⟩

set_option maxRecDepth 4000 in
/-- C4: address decoding is a total function on bytes, partitioned so that
every byte in 0x20–0x27 decodes to the variant with that numeric value and
every other byte fails with the unit decode error. -/
theorem address_try_from_partition :
    ∀ b : Fin 256,
      Except.map Address.toU8 (Address.try_from b.val)
        = if 0x20 ≤ b.val ∧ b.val ≤ 0x27
          then Except.ok b.val else Except.error () := by
  decide

set_option maxRecDepth 4000 in
/-- C5: constructing a Port from any of the 256 byte values never fails
(the constructor is total), and extracting the raw byte back yields the
same byte: decode–encode round-trip identity. -/
theorem port_roundtrip_identity :
    ∀ b : Fin 256, (Port.from_bits_unchecked b.val).bits = b.val := by
  decide

/-- C6: for every driver instance and transport, `clear_outputs()` is the
same operation as `write_outputs(Port::empty())`: identical result and an
identical single transaction, the two-byte write `[0x01, 0x00]` to the
driver's address. -/
theorem clear_outputs_equiv_write_outputs_empty {E : Type} (d : PCA9554)
    (i2c : I2C E) :
    d.clear_outputs i2c = d.write_outputs i2c Port.empty ∧
    (d.clear_outputs i2c).2 = [BusOp.write d.address.toU8 [0x01, 0x00]] :=
  ⟨rfl, rfl⟩

/-- C7: each operation's result is exactly its single transport call's
result — it fails with error `e` iff the transport call failed with that
same `e`, unmodified — each primitive issues exactly one transaction (no
retry), the driver value is pure (no state to mutate), and every public
operation is definitionally one primitive call, so the same holds for each
of them. -/
theorem transport_errors_propagate_unmodified {E : Type} (d : PCA9554)
    (i2c : I2C E) (reg : Register) (p : Port) :
    (∀ e : E, ((d.read i2c reg).1 = Except.error e ↔
        i2c.write_read d.address.toU8 [reg.toU8] 1 = Except.error e)) ∧
    (∀ e : E, ((d.write i2c reg p).1 = Except.error e ↔
        i2c.write d.address.toU8 [reg.toU8, (u8_to_le_bytes p.bits).headD 0]
          = Except.error e)) ∧
    ((d.read i2c reg).1.isOk
        = (i2c.write_read d.address.toU8 [reg.toU8] 1).isOk) ∧
    ((d.write i2c reg p).1.isOk
        = (i2c.write d.address.toU8
            [reg.toU8, (u8_to_le_bytes p.bits).headD 0]).isOk) ∧
    (d.read i2c reg).2.length = 1 ∧
    (d.write i2c reg p).2.length = 1 ∧
    d.read_inputs i2c = d.read i2c Register.INPUT_PORT ∧
    d.read_outputs i2c = d.read i2c Register.OUTPUT_PORT ∧
    d.read_config i2c = d.read i2c Register.CONFIG_PORT ∧
    d.is_inverted i2c = d.read i2c Register.POLARITY_INVERSION ∧
    d.write_outputs i2c p = d.write i2c Register.OUTPUT_PORT p ∧
    d.clear_outputs i2c = d.write i2c Register.OUTPUT_PORT Port.empty ∧
    d.write_config i2c p = d.write i2c Register.CONFIG_PORT p ∧
    d.set_inverted i2c p = d.write i2c Register.POLARITY_INVERSION p := by
  refine ⟨fun e => ?_, fun e => Iff.rfl, ?_, rfl, rfl, rfl,
    rfl, rfl, rfl, rfl, rfl, rfl, rfl, rfl⟩
  · cases h : i2c.write_read d.address.toU8 [reg.toU8] 1 <;>
      simp [PCA9554.read, h, Except.map]
  · cases h : i2c.write_read d.address.toU8 [reg.toU8] 1 <;>
      simp [PCA9554.read, h, Except.map, Except.isOk, Except.toBool]

/-- C8: every transaction a driver instance issues targets the bus address
byte of the Address it holds, and the numeric values of two Addresses agree
exactly when the Addresses are equal, so instances constructed with
different Addresses never cross-target each other's bus address. -/
theorem transactions_target_own_address {E : Type} (d : PCA9554)
    (i2c : I2C E) (reg : Register) (p : Port) :
    ((d.read i2c reg).2.map BusOp.addr) = [d.address.toU8] ∧
    ((d.write i2c reg p).2.map BusOp.addr) = [d.address.toU8] ∧
    (∀ a1 a2 : Address, a1.toU8 = a2.toU8 ↔ a1 = a2) := by
  refine ⟨rfl, rfl, fun a1 a2 => ?_⟩
  cases a1 <;> cases a2 <;> simp [Address.toU8]

/-- C9: the driver consists of nothing but its Address — two driver values
are equal exactly when their addresses are — it stores no transport, and
the `address` accessor returns the Address passed to `new`. -/
theorem driver_state_is_only_its_address {E : Type} (i2c : I2C E)
    (a : Address) :
    (PCA9554.new i2c a).address = a ∧
    (∀ d1 d2 : PCA9554, d1 = d2 ↔ d1.address = d2.address) := by
  refine ⟨rfl, fun d1 d2 => ?_⟩
  cases d1; cases d2; simp

/-- C10: the constructor ignores its transport argument (PhantomData), so
two instances built with the same Address but different constructor-time
transports are equal and issue byte-identical transactions; the issued
transaction is a pure function of the Address, the operation and the Port
argument. -/
theorem transactions_pure_function_of_address_and_args {E : Type}
    (i2cA i2cB i2c : I2C E) (a : Address) (reg : Register) (p : Port) :
    PCA9554.new i2cA a = PCA9554.new i2cB a ∧
    ((PCA9554.new i2cA a).read i2c reg).2
        = ((PCA9554.new i2cB a).read i2c reg).2 ∧
    ((PCA9554.new i2cA a).write i2c reg p).2
        = ((PCA9554.new i2cB a).write i2c reg p).2 ∧
    ((PCA9554.new i2cA a).read i2c reg).2
        = [BusOp.writeRead a.toU8 [reg.toU8] 1] ∧
    ((PCA9554.new i2cA a).write i2c reg p).2
        = [BusOp.write a.toU8 [reg.toU8, p.bits % 256]] :=
  ⟨rfl, rfl, rfl, rfl, rfl⟩

end Pca9554
